import Mathlib

/-!
Shallow embedding of `.github/scripts/generate_report.py`: a portfolio
reporting script (load portfolio → fetch quotes → compute valuation →
format report → persist/notify).  Python values appearing in parsed JSON
are modelled by `PyVal`; Python floats are modelled exactly by rationals;
the process-global quote cache and the network are passed explicitly.
-/

/-- A Python value as produced by `json.load` / the MOEX response rows.
Python `bool` is a subclass of `int`, so `isinstance(x, (int, float))`
accepts booleans; the model keeps `bool` separate and the `py_*` helpers
reproduce the subclass behaviour. -/
inductive PyVal where
  | none
  | bool (b : Bool)
  | int (n : Int)
  | float (q : ℚ)
  | str (s : String)
  | list (items : List PyVal)
  | dict (entries : List (String × PyVal))

/-- Python truthiness (`if x:`). -/
def py_truthy : PyVal → Bool
  | .none => false
  | .bool b => b
  | .int n => decide (n ≠ 0)
  | .float q => decide (q ≠ 0)
  | .str s => decide (s ≠ "")
  | .list items => !items.isEmpty
  | .dict entries => !entries.isEmpty

/-- Python `x is None`. -/
def py_is_none : PyVal → Bool
  | .none => true
  | _ => false

/-- Python `isinstance(x, (int, float))` (booleans are `int` instances). -/
def py_is_number : PyVal → Bool
  | .bool _ => true
  | .int _ => true
  | .float _ => true
  | _ => false

/-- Python `x > 0` on a value that passed `py_is_number`
(`True > 0` holds since `True == 1`). -/
def py_gt_zero : PyVal → Bool
  | .bool b => b
  | .int n => decide (0 < n)
  | .float q => decide (0 < q)
  | _ => false

/-- Python `int(x)` on a number: floats truncate toward zero. -/
def py_to_int : PyVal → Int
  | .bool b => if b then 1 else 0
  | .int n => n
  | .float q => Int.tdiv q.num q.den
  | _ => 0

/-- Python `int(x)` on an arbitrary value; non-numeric, non-parsable
arguments raise (`TypeError` / `ValueError`), modelled as `Except.error`. -/
def py_int_checked : PyVal → Except Unit Int
  | .bool b => .ok (if b then 1 else 0)
  | .int n => .ok n
  | .float q => .ok (Int.tdiv q.num q.den)
  | .str s =>
    match s.toInt? with
    | some n => .ok n
    | Option.none => .error ()
  | _ => .error ()

/-- Python `float(x)` on a value that passed `py_is_number`. -/
def py_to_float : PyVal → ℚ
  | .bool b => if b then 1 else 0
  | .int n => (n : ℚ)
  | .float q => q
  | _ => 0

/-- The hardcoded fallback portfolio of `load_portfolio` (lines 32, 36, 40). -/
def default_portfolio : List (String × Int) :=
  [("SBER", 10), ("GAZP", 5), ("VTBR", 1000), ("SPBE", 2)]

/-- Outcome of `open('portfolio.json')` + `json.load`: the file may be
missing (`FileNotFoundError`), unparseable (`json.JSONDecodeError`), or
parse to some Python value.  JSON object keys are always strings, and a
parsed object has no duplicate keys. -/
inductive LoadInput where
  | file_missing
  | parse_error
  | parsed (v : PyVal)

/-- One iteration of the validation loop of `load_portfolio` (lines 29-31):
`if isinstance(symbol, str) and isinstance(lots, (int, float)) and lots > 0`.
The key is a `String` by construction (JSON object keys), so the
`isinstance(symbol, str)` conjunct always holds in the model. -/
def validate_step (acc : List (String × Int)) (e : String × PyVal) :
    List (String × Int) :=
  if py_is_number e.2 && py_gt_zero e.2 then acc ++ [(e.1, py_to_int e.2)]
  else acc

/-- The validation loop of `load_portfolio` building `validated_portfolio`. -/
def validate_entries (d : List (String × PyVal)) : List (String × Int) :=
  d.foldl validate_step []

/-- `load_portfolio` (lines 17-40): parse, require a dict, filter entries,
fall back to `default_portfolio` on any error or an empty validated dict. -/
def load_portfolio : LoadInput → List (String × Int)
  | .file_missing => default_portfolio
  | .parse_error => default_portfolio
  | .parsed (PyVal.dict d) =>
    let validated := validate_entries d
    if validated.isEmpty then default_portfolio else validated
  | .parsed _ => default_portfolio

/-- The conditions under which `load_portfolio` falls back to the default
portfolio: unreadable or unparseable file, a non-dict top level
(`ValueError` of line 25), or an empty validated result (line 33). -/
def uses_default : LoadInput → Bool
  | .file_missing => true
  | .parse_error => true
  | .parsed (PyVal.dict d) => (validate_entries d).isEmpty
  | .parsed _ => true

/-- The `result` dict built by `get_moex_data` (lines 89-94). -/
structure Quote where
  price : ℚ
  lot_size : Int
  source : String
  timestamp : String
deriving DecidableEq

/-- Outcome of one `requests.get` attempt: timeout
(`requests.exceptions.Timeout`), any other transport error
(`requests.exceptions.RequestException`, including the `raise_for_status`
HTTP errors), or a parsed JSON body, abstracted to its
`securities.data` and `marketdata.data` array-of-arrays sections. -/
inductive NetResult where
  | timeout
  | transport_error
  | ok (securities marketdata : List (List PyVal))

/-- Ambient state of one `get_moex_data` call: `time.time()`,
`datetime.now().isoformat()`, and the network's response to the i-th
attempt for this symbol. -/
structure FetchEnv where
  current_time : ℚ
  now_iso : String
  net : ℕ → NetResult

/-- The module-level `_REQUEST_CACHE`: key → (quote, fetch time). -/
abbrev Cache := List (String × Quote × ℚ)

/-- `_CACHE_TIMEOUT = 300`. -/
def cache_timeout : ℚ := 300

/-- Observable outcome of one `get_moex_data` call: its return value, the
cache afterwards, how many network attempts were issued, and the sleeps
(in seconds, chronological) performed between retry attempts. -/
structure FetchResult where
  quote : Option Quote
  cache : Cache
  attempts : ℕ
  sleeps : List ℚ
deriving DecidableEq

/-- The retry loop `for attempt in range(3)` (lines 62-75): a successful
attempt breaks out with the body; a failed attempt at `attempt == 2`
re-raises (caught by the outer handler, line 100), otherwise sleeps 1
second and retries.  `i` is the attempt index, `remaining` the attempts
left (`3 - i`). -/
def attempt_loop (net : ℕ → NetResult) :
    ℕ → ℕ → Option (List (List PyVal) × List (List PyVal)) × ℕ × List ℚ
  | _, 0 => (Option.none, 0, [])
  | i, remaining + 1 =>
    match net i with
    | .ok secs mkts => (some (secs, mkts), 1, [])
    | _ =>
      if remaining = 0 then (Option.none, 1, [])
      else
        let rest := attempt_loop net (i + 1) remaining
        (rest.1, rest.2.1 + 1, (1 : ℚ) :: rest.2.2)

/-- `securities[0][1]`, the PREVADMITTEDQUOTE fallback price; a too-short
row raises `IndexError` (caught by the outer handler). -/
def sec_price (securities : List (List PyVal)) : Except Unit PyVal :=
  match securities with
  | [] => .error ()
  | row :: _ =>
    match row.get? 1 with
    | some v => .ok v
    | Option.none => .error ()

/-- Price resolution (line 83):
`marketdata[0][0] if marketdata and marketdata[0][0] is not None else
securities[0][1]`.  A nonempty `marketdata` whose first row is empty
raises `IndexError` when `marketdata[0][0]` is evaluated. -/
def resolve_price (securities marketdata : List (List PyVal)) :
    Except Unit PyVal :=
  match marketdata with
  | [] => sec_price securities
  | row :: _ =>
    match row.get? 0 with
    | Option.none => .error ()
    | some v => if py_is_none v then sec_price securities else .ok v

/-- Lot size field (line 84):
`securities[0][2] if len(securities[0]) > 2 and securities[0][2] else 1`. -/
def lot_size_field (securities : List (List PyVal)) : PyVal :=
  match securities with
  | [] => PyVal.int 1
  | row :: _ =>
    if h : 2 < row.length then
      let v := row.get ⟨2, h⟩
      if py_truthy v then v else PyVal.int 1
    else PyVal.int 1

/-- The parsing phase of `get_moex_data` (lines 77-94): empty `securities`
section → `None`; resolve the price; reject a non-number or non-positive
price; build the `result` dict (where `int(lot_size)` may itself raise,
caught by the outer handler). -/
def parse_quote (now_iso : String) (securities marketdata : List (List PyVal)) :
    Option Quote :=
  if securities.isEmpty then Option.none
  else
    match resolve_price securities marketdata with
    | .error _ => Option.none
    | .ok price =>
      if py_is_number price && py_gt_zero price then
        match py_int_checked (lot_size_field securities) with
        | .error _ => Option.none
        | .ok ls => some ⟨py_to_float price, ls, "MOEX", now_iso⟩
      else Option.none

/-- The network-and-parse phase of `get_moex_data` (after a cache miss):
run the retry loop; any exhaustion or parse failure yields `None` and
leaves the cache unchanged; a successful parse is stored in the cache
under `cache_key` with the call's `current_time` (line 97). -/
def fetch_fresh (env : FetchEnv) (cache : Cache) (cache_key : String) :
    FetchResult :=
  match attempt_loop env.net 0 3 with
  | (Option.none, n, sl) => ⟨Option.none, cache, n, sl⟩
  | (some (secs, mkts), n, sl) =>
    match parse_quote env.now_iso secs mkts with
    | Option.none => ⟨Option.none, cache, n, sl⟩
    | some q => ⟨some q, (cache_key, q, env.current_time) :: cache, n, sl⟩

/-- `get_moex_data` (lines 42-102): cache check (a hit younger than
`_CACHE_TIMEOUT` seconds returns the cached quote with no network
traffic), otherwise fetch, parse and cache. -/
def get_moex_data (env : FetchEnv) (cache : Cache) (symbol : String) :
    FetchResult :=
  let cache_key := "moex_" ++ symbol
  match cache.lookup cache_key with
  | some (cached_data, ts) =>
    if env.current_time - ts < cache_timeout then ⟨some cached_data, cache, 0, []⟩
    else fetch_fresh env cache cache_key
  | Option.none => fetch_fresh env cache cache_key

/-- Modelled from the spec (section 4.2, "Parse response: prefer a live
last-traded price field; if absent or null, fall back to a
previous-session reference price field"): the price resolution as the
specification words it, with the fallback taken whenever the live field
is absent (for any reason) or null.  Used to compare claim C7 with the
code's `resolve_price`. -/
def spec_resolve_price (securities marketdata : List (List PyVal)) :
    Except Unit PyVal :=
  match marketdata.head?.bind (fun row => row.get? 0) with
  | some v => if py_is_none v then sec_price securities else .ok v
  | Option.none => sec_price securities

/-- A `positions[symbol]` record of `generate_report` (lines 129-134). -/
structure Position where
  lots : Int
  price : ℚ
  lot_size : Int
  position_value : ℚ
deriving DecidableEq

/-- One iteration of the valuation loop of `generate_report` (lines
122-135): `data = market_data.get(symbol, {})`; `if data and
data.get('price')` — a present quote record is a nonempty dict (truthy),
and its `price` float is truthy iff nonzero. -/
def valuation_step (market_data : List (String × Quote))
    (st : List (String × Position) × ℚ) (e : String × Int) :
    List (String × Position) × ℚ :=
  match market_data.lookup e.1 with
  | some data =>
    if data.price ≠ 0 then
      let position_value := data.price * (e.2 : ℚ) * (data.lot_size : ℚ)
      (st.1 ++ [(e.1, ⟨e.2, data.price, data.lot_size, position_value⟩)],
       st.2 + position_value)
    else st
  | Option.none => st

/-- The valuation loop of `generate_report`: positions and `total_value`. -/
def compute_positions (portfolio : List (String × Int))
    (market_data : List (String × Quote)) : List (String × Position) × ℚ :=
  portfolio.foldl (valuation_step market_data) ([], 0)

/-- `failed_symbols = [s for s in portfolio.keys() if s not in positions]`
(line 159). -/
def failed_symbols (portfolio : List (String × Int))
    (positions : List (String × Position)) : List String :=
  (portfolio.map Prod.fst).filter fun s => (positions.lookup s).isNone

/-- The unavailable-assets section of the report (lines 160-164): each
failed symbol with its held lot count `portfolio[symbol]`. -/
def unavailable_section (portfolio : List (String × Int))
    (positions : List (String × Position)) : List (String × Int) :=
  (failed_symbols portfolio positions).map fun s =>
    (s, (portfolio.lookup s).getD 0)

/-- The data content of the report assembled by `generate_report` from a
portfolio and the fetched `market_data` mapping. -/
structure ReportData where
  positions : List (String × Position)
  total_value : ℚ
  unavailable : List (String × Int)

/-- The pure computation of `generate_report` (lines 119-164) over an
already-fetched `market_data` mapping. -/
def generate_report_data (portfolio : List (String × Int))
    (market_data : List (String × Quote)) : ReportData :=
  let pt := compute_positions portfolio market_data
  ⟨pt.1, pt.2, unavailable_section portfolio pt.1⟩

/-- `percent = (value / total_value * 100) if total_value > 0 else 0`
(line 153). -/
def position_percent (value total_value : ℚ) : ℚ :=
  if 0 < total_value then value / total_value * 100 else 0

/-- The percentages shown in the valuation section of the report
(lines 151-154), one per position, in position order. -/
def valuation_percents (positions : List (String × Position))
    (total_value : ℚ) : List (String × ℚ) :=
  positions.map fun e => (e.1, position_percent e.2.position_value total_value)

/-- Contribution of one portfolio entry to the claimed total:
`price × lots × lot_size` for a quoted symbol, 0 otherwise. -/
def quoted_value (market_data : List (String × Quote)) (e : String × Int) : ℚ :=
  match market_data.lookup e.1 with
  | some q => q.price * (e.2 : ℚ) * (q.lot_size : ℚ)
  | Option.none => 0

/-- The position record claim C1 expects for a quoted portfolio entry. -/
def pos_of (market_data : List (String × Quote)) (e : String × Int) :
    Option (String × Position) :=
  (market_data.lookup e.1).map fun q =>
    (e.1, ⟨e.2, q.price, q.lot_size, q.price * (e.2 : ℚ) * (q.lot_size : ℚ)⟩)

/-- Python truthiness of an `os.getenv` result (`None` or a string). -/
def str_truthy : Option String → Bool
  | Option.none => false
  | some s => decide (s ≠ "")

/-- The literal appended by `send_telegram_message` when truncating
(line 179). -/
def truncation_marker : String := "\n... [сообщение обрезано]"

/-- The message-shaping of `send_telegram_message` (lines 177-179):
`message[:4000]` plus the marker when `len(message) > 4000`. -/
def truncate_message (message : String) : String :=
  if message.length > 4000 then message.take 4000 ++ truncation_marker
  else message

/-- `send_telegram_message` (lines 172-196), abstracted to the text it
POSTs: `none` when the credentials are falsy (nothing is sent), otherwise
`some` of the (possibly truncated) payload text. -/
def send_telegram_message (token chat_id : Option String)
    (message : String) : Option String :=
  if str_truthy token && str_truthy chat_id then some (truncate_message message)
  else Option.none

/-! ### Generic association-list lemmas -/

theorem lookup_mem {α β : Type} [BEq α] [LawfulBEq α]
    (l : List (α × β)) (a : α) (b : β) (h : l.lookup a = some b) :
    (a, b) ∈ l := by
  induction l with
  | nil => simp [List.lookup] at h
  | cons x t ih =>
    obtain ⟨k, v⟩ := x
    rw [List.lookup_cons] at h
    cases hk : (a == k) with
    | true =>
      rw [hk] at h
      obtain rfl := eq_of_beq hk
      obtain rfl : v = b := by simpa using h
      exact List.mem_cons_self _ _
    | false =>
      rw [hk] at h
      exact List.mem_cons_of_mem _ (ih h)

theorem lookup_eq_of_mem_nodup {α β : Type} [BEq α] [LawfulBEq α]
    (l : List (α × β)) (a : α) (b : β)
    (hnd : (l.map Prod.fst).Nodup) (hm : (a, b) ∈ l) :
    l.lookup a = some b := by
  induction l with
  | nil => simp at hm
  | cons x t ih =>
    obtain ⟨k, v⟩ := x
    simp only [List.map_cons, List.nodup_cons] at hnd
    rcases List.mem_cons.mp hm with heq | hmem
    · obtain ⟨rfl, rfl⟩ := Prod.mk.injEq .. ▸ heq
      simp [List.lookup_cons]
    · have hne : a ≠ k := by
        rintro rfl
        exact hnd.1 (List.mem_map_of_mem Prod.fst hmem)
      rw [List.lookup_cons, beq_false_of_ne hne]
      exact ih hnd.2 hmem

/-! ### `load_portfolio` lemmas -/

theorem validate_step_append (acc : List (String × Int)) (e : String × PyVal) :
    validate_step acc e = acc ++ validate_step [] e := by
  unfold validate_step
  split <;> simp

theorem foldl_validate_append (d : List (String × PyVal))
    (acc : List (String × Int)) :
    d.foldl validate_step acc = acc ++ d.foldl validate_step [] := by
  induction d generalizing acc with
  | nil => simp
  | cons e t ih =>
    simp only [List.foldl_cons]
    rw [ih (validate_step acc e), validate_step_append acc e,
      ih (validate_step [] e), List.append_assoc]

theorem validate_entries_eq_filterMap (d : List (String × PyVal)) :
    validate_entries d = d.filterMap fun e =>
      if py_is_number e.2 && py_gt_zero e.2 then some (e.1, py_to_int e.2)
      else Option.none := by
  induction d with
  | nil => rfl
  | cons e t ih =>
    show (e :: t).foldl validate_step [] = _
    simp only [List.foldl_cons, List.filterMap_cons]
    rw [foldl_validate_append t (validate_step [] e)]
    by_cases h : (py_is_number e.2 && py_gt_zero e.2) = true
    · have hs : validate_step [] e = [(e.1, py_to_int e.2)] := by
        unfold validate_step; rw [if_pos h]; rfl
      rw [hs, if_pos h, List.singleton_append]
      exact congrArg _ ih
    · have hs : validate_step [] e = [] := by
        unfold validate_step; rw [if_neg h]
      rw [hs, if_neg h, List.nil_append]
      exact ih

/-! ### Claims C2 and C4: `load_portfolio` -/

/-- Claim C2, counterexample: the claim says an entry is kept only if its
key is a NON-EMPTY string, but `load_portfolio` only checks
`isinstance(symbol, str)` (line 30) and keeps an entry whose key is the
empty string: at the parsed file `{"": 5}` the kept-iff-(non-empty-key ∧
positive-number) equivalence is false. -/
theorem C2_counterexample :
    ¬ ((("", (5 : Int)) ∈
          load_portfolio (LoadInput.parsed (PyVal.dict [("", PyVal.int 5)]))) ↔
        ("" ≠ "" ∧ (py_is_number (PyVal.int 5) && py_gt_zero (PyVal.int 5)) = true)) := by
  decide

theorem py_to_int_nonpos (v : PyVal)
    (h : (py_is_number v && py_gt_zero v) = false) : py_to_int v ≤ 0 := by
  cases v with
  | bool b =>
    simp only [py_is_number, py_gt_zero, Bool.true_and] at h
    simp [py_to_int, h]
  | int n =>
    simp only [py_is_number, py_gt_zero, Bool.true_and,
      decide_eq_false_iff_not] at h
    simpa [py_to_int] using le_of_not_lt h
  | float q =>
    simp only [py_is_number, py_gt_zero, Bool.true_and,
      decide_eq_false_iff_not] at h
    have hnum : q.num ≤ 0 := Rat.num_nonpos.mpr (le_of_not_lt h)
    have h1 : 0 ≤ (-q.num).tdiv q.den :=
      Int.tdiv_nonneg (by omega) (by positivity)
    have h2 : (-q.num).tdiv q.den = -(q.num.tdiv q.den) :=
      Int.neg_tdiv q.num q.den
    show Int.tdiv q.num q.den ≤ 0
    omega
  | none => simp [py_to_int]
  | str s => simp [py_to_int]
  | list items => simp [py_to_int]
  | dict entries => simp [py_to_int]

theorem load_portfolio_dict_empty (d : List (String × PyVal))
    (h : validate_entries d = []) :
    load_portfolio (LoadInput.parsed (PyVal.dict d)) = default_portfolio := by
  show (let validated := validate_entries d
    if validated.isEmpty then default_portfolio else validated) = _
  simp [h]

theorem load_portfolio_dict_nonempty (d : List (String × PyVal))
    (h : validate_entries d ≠ []) :
    load_portfolio (LoadInput.parsed (PyVal.dict d)) = validate_entries d := by
  show (let validated := validate_entries d
    if validated.isEmpty then default_portfolio else validated) = _
  simp only [List.isEmpty_iff]
  rw [if_neg h]

/-- Claim C2, amended: for every entry of a parsed dict (JSON object keys
are strings and pairwise distinct), `load_portfolio` keeps the entry —
its key paired with its value coerced to an integer lot count (floats
truncating toward zero) — if and only if the value is a number greater
than zero (`bool` counting as an integer); the key is a string but is NOT
checked for non-emptiness.  An entry failing the test is dropped
individually while the remaining entries are still loaded: the validated
mapping built by the loop contains exactly the passing entries, in file
order. -/
theorem C2_entry_filter (d : List (String × PyVal))
    (hkeys : (d.map Prod.fst).Nodup) :
    validate_entries d = (d.filterMap fun e =>
        if py_is_number e.2 && py_gt_zero e.2 then some (e.1, py_to_int e.2)
        else Option.none) ∧
    ∀ s v, (s, v) ∈ d →
      (((s, py_to_int v) ∈ load_portfolio (LoadInput.parsed (PyVal.dict d))) ↔
        (py_is_number v && py_gt_zero v) = true) := by
  refine ⟨validate_entries_eq_filterMap d, ?_⟩
  intro s v hmem
  by_cases hc : (py_is_number v && py_gt_zero v) = true
  · have hmemf : (s, py_to_int v) ∈ d.filterMap fun e =>
        if py_is_number e.2 && py_gt_zero e.2 then some (e.1, py_to_int e.2)
        else Option.none :=
      List.mem_filterMap.mpr ⟨(s, v), hmem, by rw [if_pos hc]⟩
    have hne : validate_entries d ≠ [] := by
      rw [validate_entries_eq_filterMap]
      exact List.ne_nil_of_mem hmemf
    rw [load_portfolio_dict_nonempty d hne, validate_entries_eq_filterMap]
    exact iff_of_true hmemf hc
  · have hcf : (py_is_number v && py_gt_zero v) = false := by
      simpa using hc
    refine iff_of_false ?_ hc
    intro hmem2
    by_cases hv : validate_entries d = []
    · rw [load_portfolio_dict_empty d hv] at hmem2
      have hpos : ∀ e ∈ default_portfolio, 0 < e.2 := by decide
      have h0 : 0 < py_to_int v := hpos _ hmem2
      have hnp := py_to_int_nonpos v hcf
      omega
    · rw [load_portfolio_dict_nonempty d hv,
        validate_entries_eq_filterMap] at hmem2
      obtain ⟨a, ha, hpick⟩ := List.mem_filterMap.mp hmem2
      by_cases hca : (py_is_number a.2 && py_gt_zero a.2) = true
      · rw [if_pos hca] at hpick
        obtain ⟨h1, h2⟩ : a.1 = s ∧ py_to_int a.2 = py_to_int v := by
          simpa using hpick
        have has : (s, a.2) ∈ d := by
          rw [← h1]
          exact ha
        have hav : a.2 = v := by
          have e1 : d.lookup s = some v :=
            lookup_eq_of_mem_nodup d s v hkeys hmem
          have e2 : d.lookup s = some a.2 :=
            lookup_eq_of_mem_nodup d s a.2 hkeys has
          have := e1.symm.trans e2
          simpa using this.symm
        rw [hav] at hca
        exact absurd hca hc
      · rw [if_neg hca] at hpick
        exact absurd hpick (by simp)

/-- Claim C2 witness: in the file `{"SBER": 10, "BAD": "x"}` the good
entry is kept as {SBER: 10} and the bad entry is dropped. -/
theorem C2_entry_filter_witness :
    (([("SBER", PyVal.int 10), ("BAD", PyVal.str "x")].map Prod.fst).Nodup) ∧
    ("SBER", (10 : Int)) ∈ load_portfolio (LoadInput.parsed
        (PyVal.dict [("SBER", PyVal.int 10), ("BAD", PyVal.str "x")])) ∧
    ¬ ("BAD", (0 : Int)) ∈ load_portfolio (LoadInput.parsed
        (PyVal.dict [("SBER", PyVal.int 10), ("BAD", PyVal.str "x")])) := by
  refine ⟨by decide, ?_, ?_⟩
  · exact ((C2_entry_filter
      [("SBER", PyVal.int 10), ("BAD", PyVal.str "x")] (by decide)).2
      "SBER" (PyVal.int 10) (List.mem_cons_self _ _)).mpr (by decide)
  · intro hmem
    exact absurd (((C2_entry_filter
      [("SBER", PyVal.int 10), ("BAD", PyVal.str "x")] (by decide)).2
      "BAD" (PyVal.str "x")
      (List.mem_cons_of_mem _ (List.mem_cons_self _ _))).mp hmem)
      (by decide)

/-- Claim C4: for a missing, unparseable, non-dict or
empty-after-validation portfolio file, `load_portfolio` returns the fixed
four-symbol default, and in all cases it returns a nonempty portfolio and
never fails. -/
theorem C4_load_always_succeeds (inp : LoadInput) :
    load_portfolio inp ≠ [] ∧
      (uses_default inp = true → load_portfolio inp = default_portfolio) := by
  cases inp with
  | file_missing => exact ⟨by decide, fun _ => rfl⟩
  | parse_error => exact ⟨by decide, fun _ => rfl⟩
  | parsed v =>
    cases v with
    | dict d =>
      by_cases h : (validate_entries d).isEmpty
      · constructor
        · show (let validated := validate_entries d
            if validated.isEmpty then default_portfolio else validated) ≠ []
          simp only [h, if_true]
          decide
        · intro _
          show (let validated := validate_entries d
            if validated.isEmpty then default_portfolio else validated) = _
          simp only [h, if_true]
      · constructor
        · show (let validated := validate_entries d
            if validated.isEmpty then default_portfolio else validated) ≠ []
          simp only [h, if_false]
          simpa [List.isEmpty_iff] using h
        · intro hd
          exact absurd hd (by simpa [uses_default] using h)
    | none => exact ⟨by decide, fun _ => rfl⟩
    | bool b => exact ⟨by show default_portfolio ≠ []; decide, fun _ => rfl⟩
    | int n => exact ⟨by show default_portfolio ≠ []; decide, fun _ => rfl⟩
    | float q => exact ⟨by show default_portfolio ≠ []; decide, fun _ => rfl⟩
    | str s => exact ⟨by show default_portfolio ≠ []; decide, fun _ => rfl⟩
    | list items => exact ⟨by show default_portfolio ≠ []; decide, fun _ => rfl⟩

/-- Claim C4 witness: a missing file triggers the default fallback and a
nonempty result. -/
theorem C4_load_always_succeeds_witness :
    uses_default LoadInput.file_missing = true ∧
      load_portfolio LoadInput.file_missing ≠ [] ∧
      load_portfolio LoadInput.file_missing = default_portfolio :=
  ⟨rfl, (C4_load_always_succeeds LoadInput.file_missing).1,
    (C4_load_always_succeeds LoadInput.file_missing).2 rfl⟩

/-! ### `get_moex_data` lemmas -/

theorem attempt_loop_fail_succ (net : ℕ → NetResult) (i r : ℕ)
    (h : net i = NetResult.timeout ∨ net i = NetResult.transport_error) :
    attempt_loop net i (r + 1) =
      if r = 0 then (Option.none, 1, [])
      else ((attempt_loop net (i + 1) r).1, (attempt_loop net (i + 1) r).2.1 + 1,
            (1 : ℚ) :: (attempt_loop net (i + 1) r).2.2) := by
  rcases h with h | h <;> rw [attempt_loop.eq_2, h]

theorem attempt_loop_attempts_pos (net : ℕ → NetResult) (i r : ℕ) :
    1 ≤ (attempt_loop net i (r + 1)).2.1 := by
  unfold attempt_loop
  cases net i with
  | ok secs mkts => exact le_refl 1
  | timeout =>
    dsimp only
    split
    · exact le_refl 1
    · exact Nat.le_add_left 1 _
  | transport_error =>
    dsimp only
    split
    · exact le_refl 1
    · exact Nat.le_add_left 1 _

theorem attempt_loop_exhaust (net : ℕ → NetResult)
    (h : ∀ i, i < 3 →
      net i = NetResult.timeout ∨ net i = NetResult.transport_error) :
    attempt_loop net 0 3 = (Option.none, 3, [1, 1]) := by
  have e2 : attempt_loop net 2 1 = (Option.none, 1, []) := by
    rw [attempt_loop_fail_succ net 2 0 (h 2 (by decide))]
    rfl
  have e1 : attempt_loop net 1 2 = (Option.none, 2, [1]) := by
    rw [attempt_loop_fail_succ net 1 1 (h 1 (by decide))]
    rw [if_neg (by decide : ¬ (1 : ℕ) = 0), e2]
  have e0 : attempt_loop net 0 3 = (Option.none, 3, [1, 1]) := by
    rw [attempt_loop_fail_succ net 0 2 (h 0 (by decide))]
    rw [if_neg (by decide : ¬ (2 : ℕ) = 0), e1]
  exact e0

theorem get_moex_data_hit (env : FetchEnv) (cache : Cache) (symbol : String)
    (q : Quote) (ts : ℚ)
    (hl : cache.lookup ("moex_" ++ symbol) = some (q, ts))
    (hf : env.current_time - ts < cache_timeout) :
    get_moex_data env cache symbol = ⟨some q, cache, 0, []⟩ := by
  simp only [get_moex_data, hl]
  rw [if_pos hf]

theorem get_moex_data_stale (env : FetchEnv) (cache : Cache) (symbol : String)
    (q : Quote) (ts : ℚ)
    (hl : cache.lookup ("moex_" ++ symbol) = some (q, ts))
    (hf : ¬ env.current_time - ts < cache_timeout) :
    get_moex_data env cache symbol =
      fetch_fresh env cache ("moex_" ++ symbol) := by
  simp only [get_moex_data, hl]
  rw [if_neg hf]

theorem get_moex_data_miss (env : FetchEnv) (cache : Cache) (symbol : String)
    (hl : cache.lookup ("moex_" ++ symbol) = Option.none) :
    get_moex_data env cache symbol =
      fetch_fresh env cache ("moex_" ++ symbol) := by
  simp only [get_moex_data, hl]

theorem get_moex_data_cases (env : FetchEnv) (cache : Cache) (symbol : String) :
    (∃ q ts, cache.lookup ("moex_" ++ symbol) = some (q, ts) ∧
        env.current_time - ts < cache_timeout ∧
        get_moex_data env cache symbol = ⟨some q, cache, 0, []⟩) ∨
    ((∀ q ts, cache.lookup ("moex_" ++ symbol) = some (q, ts) →
        ¬ env.current_time - ts < cache_timeout) ∧
      get_moex_data env cache symbol =
        fetch_fresh env cache ("moex_" ++ symbol)) := by
  cases hl : cache.lookup ("moex_" ++ symbol) with
  | none =>
    right
    refine ⟨fun q ts h' => absurd h' (by simp), ?_⟩
    exact get_moex_data_miss env cache symbol hl
  | some p =>
    obtain ⟨q, ts⟩ := p
    by_cases hf : env.current_time - ts < cache_timeout
    · left
      exact ⟨q, ts, rfl, hf, get_moex_data_hit env cache symbol q ts hl hf⟩
    · right
      refine ⟨fun q' ts' h' => ?_, get_moex_data_stale env cache symbol q ts hl hf⟩
      obtain ⟨rfl, rfl⟩ : q = q' ∧ ts = ts' := by simpa using h'
      exact hf

theorem fetch_fresh_exhaust (env : FetchEnv) (cache : Cache) (key : String)
    (hnet : ∀ i, i < 3 →
      env.net i = NetResult.timeout ∨ env.net i = NetResult.transport_error) :
    fetch_fresh env cache key = ⟨Option.none, cache, 3, [1, 1]⟩ := by
  unfold fetch_fresh
  rw [attempt_loop_exhaust env.net hnet]

theorem fetch_fresh_failure (env : FetchEnv) (cache : Cache) (key : String)
    (h : (fetch_fresh env cache key).quote = Option.none) :
    (fetch_fresh env cache key).cache = cache ∧
      1 ≤ (fetch_fresh env cache key).attempts := by
  have hpos : 1 ≤ (attempt_loop env.net 0 3).2.1 :=
    attempt_loop_attempts_pos env.net 0 2
  rcases hal : attempt_loop env.net 0 3 with ⟨res, n, sl⟩
  rw [hal] at hpos
  cases res with
  | none =>
    have e : fetch_fresh env cache key = ⟨Option.none, cache, n, sl⟩ := by
      unfold fetch_fresh
      rw [hal]
    rw [e]
    exact ⟨rfl, hpos⟩
  | some p =>
    obtain ⟨secs, mkts⟩ := p
    cases hpq : parse_quote env.now_iso secs mkts with
    | none =>
      have e : fetch_fresh env cache key = ⟨Option.none, cache, n, sl⟩ := by
        unfold fetch_fresh
        rw [hal]
        dsimp only
        rw [hpq]
      rw [e]
      exact ⟨rfl, hpos⟩
    | some q =>
      have e : fetch_fresh env cache key =
          ⟨some q, (key, q, env.current_time) :: cache, n, sl⟩ := by
        unfold fetch_fresh
        rw [hal]
        dsimp only
        rw [hpq]
      rw [e] at h
      exact absurd h (by simp)

theorem py_to_float_pos (v : PyVal)
    (h : (py_is_number v && py_gt_zero v) = true) : 0 < py_to_float v := by
  cases v with
  | bool b =>
    simp only [py_is_number, py_gt_zero, Bool.true_and] at h
    simp [py_to_float, h]
  | int n =>
    simp only [py_is_number, py_gt_zero, Bool.true_and, decide_eq_true_eq] at h
    simpa [py_to_float] using h
  | float q =>
    simp only [py_is_number, py_gt_zero, Bool.true_and, decide_eq_true_eq] at h
    simpa [py_to_float] using h
  | none => simp [py_is_number] at h
  | str s => simp [py_is_number] at h
  | list items => simp [py_is_number] at h
  | dict entries => simp [py_is_number] at h

theorem parse_quote_price_pos (now_iso : String)
    (securities marketdata : List (List PyVal)) (q : Quote)
    (h : parse_quote now_iso securities marketdata = some q) : 0 < q.price := by
  unfold parse_quote at h
  split at h
  · exact absurd h (by simp)
  · split at h
    · exact absurd h (by simp)
    · next price hres =>
      split at h
      · next hnum =>
        split at h
        · exact absurd h (by simp)
        · next ls hls =>
          obtain rfl : Quote.mk (py_to_float price) ls "MOEX" now_iso = q := by
            simpa using h
          exact py_to_float_pos price hnum
      · exact absurd h (by simp)

/-! ### Claims C5, C6, C10: retry, cache hit, no caching of failures -/

/-- Claim C5: when every network attempt for a symbol fails with a timeout
or transport error (and the cache cannot serve the symbol), `get_moex_data`
makes exactly 3 attempts, sleeps 1 second between consecutive attempts
(two pauses), returns `None` instead of raising, and leaves the cache
unchanged. -/
theorem C5_retry_exhaustion (env : FetchEnv) (cache : Cache) (symbol : String)
    (hnet : ∀ i, i < 3 →
      env.net i = NetResult.timeout ∨ env.net i = NetResult.transport_error)
    (hcache : ∀ q ts, cache.lookup ("moex_" ++ symbol) = some (q, ts) →
      ¬ env.current_time - ts < cache_timeout) :
    get_moex_data env cache symbol = ⟨Option.none, cache, 3, [1, 1]⟩ := by
  rcases get_moex_data_cases env cache symbol with
    ⟨q, ts, hl, hf, _⟩ | ⟨_, he⟩
  · exact absurd hf (hcache q ts hl)
  · rw [he]
    exact fetch_fresh_exhaust env cache _ hnet

/-- Claim C5 witness: with an always-timing-out network and an empty
cache, the call returns `None` after exactly 3 attempts and 2 one-second
pauses. -/
theorem C5_retry_exhaustion_witness :
    get_moex_data ⟨0, "t", fun _ => NetResult.timeout⟩ [] "SBER" =
      ⟨Option.none, [], 3, [1, 1]⟩ :=
  C5_retry_exhaustion ⟨0, "t", fun _ => NetResult.timeout⟩ [] "SBER"
    (fun _ _ => Or.inl rfl) (fun q ts h => absurd h (by simp))

/-- Claim C6: a quote cached less than 300 seconds before the current
call is returned unchanged, with no network attempt and no change to the
cache. -/
theorem C6_cache_hit (env : FetchEnv) (cache : Cache) (symbol : String)
    (q : Quote) (ts : ℚ)
    (hl : cache.lookup ("moex_" ++ symbol) = some (q, ts))
    (hfresh : env.current_time - ts < cache_timeout) :
    get_moex_data env cache symbol = ⟨some q, cache, 0, []⟩ :=
  get_moex_data_hit env cache symbol q ts hl hfresh

/-- Claim C6 witness: a quote fetched at time 0 is served from the cache
at time 10 with zero network attempts. -/
theorem C6_cache_hit_witness :
    ([("moex_SBER", Quote.mk 250 10 "MOEX" "t", 0)] : Cache).lookup
        ("moex_" ++ "SBER") = some (Quote.mk 250 10 "MOEX" "t", 0) ∧
    get_moex_data ⟨10, "now", fun _ => NetResult.timeout⟩
        [("moex_SBER", Quote.mk 250 10 "MOEX" "t", 0)] "SBER" =
      ⟨some (Quote.mk 250 10 "MOEX" "t"),
        [("moex_SBER", Quote.mk 250 10 "MOEX" "t", 0)], 0, []⟩ :=
  ⟨by decide,
    C6_cache_hit ⟨10, "now", fun _ => NetResult.timeout⟩
      [("moex_SBER", Quote.mk 250 10 "MOEX" "t", 0)] "SBER"
      (Quote.mk 250 10 "MOEX" "t") 0 (by decide)
      (by simp only [sub_zero, cache_timeout]; decide)⟩

/-- Claim C10: a `get_moex_data` call that returns `None` never writes to
the cache, and it reached the network (at least one attempt), so a
subsequent call for the same symbol starts from an identical cache and
goes to the network again rather than seeing a cached failure. -/
theorem C10_no_cache_on_failure (env : FetchEnv) (cache : Cache)
    (symbol : String)
    (h : (get_moex_data env cache symbol).quote = Option.none) :
    (get_moex_data env cache symbol).cache = cache ∧
      1 ≤ (get_moex_data env cache symbol).attempts := by
  rcases get_moex_data_cases env cache symbol with
    ⟨q, ts, _, _, he⟩ | ⟨_, he⟩
  · rw [he] at h
    exact absurd h (by simp)
  · rw [he] at h ⊢
    exact fetch_fresh_failure env cache _ h

/-- Claim C10 witness: a failing call (network always times out, empty
cache) leaves the cache empty and made at least one attempt. -/
theorem C10_no_cache_on_failure_witness :
    (get_moex_data ⟨0, "t", fun _ => NetResult.timeout⟩ [] "SBER").quote =
        Option.none ∧
      (get_moex_data ⟨0, "t", fun _ => NetResult.timeout⟩ [] "SBER").cache =
        ([] : Cache) ∧
      1 ≤ (get_moex_data ⟨0, "t", fun _ => NetResult.timeout⟩ [] "SBER").attempts :=
  ⟨by decide,
    (C10_no_cache_on_failure ⟨0, "t", fun _ => NetResult.timeout⟩ [] "SBER"
      (by decide)).1,
    (C10_no_cache_on_failure ⟨0, "t", fun _ => NetResult.timeout⟩ [] "SBER"
      (by decide)).2⟩

/-! ### Claim C3: quote record invariants -/

/-- Claim C3, counterexample: the claim says every returned quote has a
POSITIVE lot size, but `get_moex_data` never checks the sign of the
LOTSIZE field (line 84 only tests truthiness): a response row
`["SBER", 250.0, -1]` yields a returned quote with `lot_size = -1`. -/
theorem C3_counterexample :
    (get_moex_data
        ⟨0, "t", fun _ =>
          NetResult.ok [[PyVal.str "SBER", PyVal.float 250, PyVal.int (-1)]] []⟩
        [] "SBER").quote = some (Quote.mk 250 (-1) "MOEX" "t") ∧
      ¬ 0 < (Quote.mk 250 (-1) "MOEX" "t").lot_size := by
  constructor
  · decide
  · decide

/-- Claim C3, amended: every quote record returned by `get_moex_data` has
a positive price, provided every quote already in the cache has a
positive price (the cache is only ever filled by `get_moex_data` itself,
and the positivity of cached prices is preserved by every call); the lot
size is an integer but is NOT guaranteed positive. -/
theorem C3_price_positive (env : FetchEnv) (cache : Cache) (symbol : String)
    (hcache : ∀ e ∈ cache, 0 < (e.2.1 : Quote).price) :
    (∀ q, (get_moex_data env cache symbol).quote = some q → 0 < q.price) ∧
      (∀ e ∈ (get_moex_data env cache symbol).cache,
        0 < (e.2.1 : Quote).price) := by
  rcases get_moex_data_cases env cache symbol with
    ⟨q, ts, hl, _, he⟩ | ⟨_, he⟩
  · rw [he]
    constructor
    · intro q' hq'
      obtain rfl : q = q' := by simpa using hq'
      exact hcache _ (lookup_mem cache ("moex_" ++ symbol) (q, ts) hl)
    · exact hcache
  · rw [he]
    have hpos : 1 ≤ (attempt_loop env.net 0 3).2.1 :=
      attempt_loop_attempts_pos env.net 0 2
    rcases hal : attempt_loop env.net 0 3 with ⟨res, n, sl⟩
    cases res with
    | none =>
      have e : fetch_fresh env cache ("moex_" ++ symbol) =
          ⟨Option.none, cache, n, sl⟩ := by
        unfold fetch_fresh
        rw [hal]
      rw [e]
      exact ⟨fun q hq => absurd hq (by simp), hcache⟩
    | some p =>
      obtain ⟨secs, mkts⟩ := p
      cases hpq : parse_quote env.now_iso secs mkts with
      | none =>
        have e : fetch_fresh env cache ("moex_" ++ symbol) =
            ⟨Option.none, cache, n, sl⟩ := by
          unfold fetch_fresh
          rw [hal]
          dsimp only
          rw [hpq]
        rw [e]
        exact ⟨fun q hq => absurd hq (by simp), hcache⟩
      | some q =>
        have e : fetch_fresh env cache ("moex_" ++ symbol) =
            ⟨some q, ("moex_" ++ symbol, q, env.current_time) :: cache, n, sl⟩ := by
          unfold fetch_fresh
          rw [hal]
          dsimp only
          rw [hpq]
        rw [e]
        have hqpos : 0 < q.price := parse_quote_price_pos env.now_iso secs mkts q hpq
        constructor
        · intro q' hq'
          obtain rfl : q = q' := by simpa using hq'
          exact hqpos
        · intro e' he'
          rcases List.mem_cons.mp he' with rfl | hmem
          · exact hqpos
          · exact hcache e' hmem

/-- Claim C3 witness: a successful fetch from an empty cache returns a
quote whose price 250 is positive. -/
theorem C3_price_positive_witness :
    (get_moex_data
        ⟨0, "t", fun _ =>
          NetResult.ok [[PyVal.str "SBER", PyVal.float 250, PyVal.int 10]] []⟩
        [] "SBER").quote = some (Quote.mk 250 10 "MOEX" "t") ∧
      0 < (Quote.mk 250 10 "MOEX" "t").price :=
  ⟨by decide,
    (C3_price_positive
        ⟨0, "t", fun _ =>
          NetResult.ok [[PyVal.str "SBER", PyVal.float 250, PyVal.int 10]] []⟩
        [] "SBER" (fun e he => absurd he (List.not_mem_nil e))).1
      (Quote.mk 250 10 "MOEX" "t") (by decide)⟩

/-! ### Claim C7: response parsing -/

/-- Claim C7, counterexample: the claim says the price falls back to the
previous-session reference field whenever the live field is absent, but
with `marketdata = [[]]` (a live-data section containing one empty row)
the code evaluates `marketdata[0][0]`, raises `IndexError`, and returns
`None` (line 100-102) — even though the spec-worded resolution finds the
positive fallback price 250 in the securities row. -/
theorem C7_counterexample :
    (get_moex_data
        ⟨0, "t", fun _ =>
          NetResult.ok [[PyVal.str "SBER", PyVal.float 250, PyVal.int 10]] [[]]⟩
        [] "SBER").quote = Option.none ∧
      spec_resolve_price [[PyVal.str "SBER", PyVal.float 250, PyVal.int 10]] [[]] =
        Except.ok (PyVal.float 250) ∧
      (py_is_number (PyVal.float 250) && py_gt_zero (PyVal.float 250)) = true := by
  refine ⟨by decide, rfl, by decide⟩

/-- Claim C7, amended: the price resolves to the live last-traded field
when the live-data section has a first row whose first entry exists and
is non-null; it falls back to the previous-session reference field when
the live-data section is empty or the live first entry is null; a
nonempty live-data section whose first row has no first entry makes the
symbol unavailable (`IndexError`); the lot size defaults to 1 when the
third securities field is missing or falsy; and a resolved price that is
not a positive number makes `parse_quote` return `None`. -/
theorem C7_parse_resolution (now_iso : String) (secs : List (List PyVal)) :
    (resolve_price secs [] = sec_price secs) ∧
    (∀ v row rest, py_is_none v = false →
        resolve_price secs ((v :: row) :: rest) = Except.ok v) ∧
    (∀ row rest,
        resolve_price secs ((PyVal.none :: row) :: rest) = sec_price secs) ∧
    (∀ rest, resolve_price secs ([] :: rest) = Except.error ()) ∧
    (∀ mkts, resolve_price secs mkts = Except.error () →
        parse_quote now_iso secs mkts = Option.none) ∧
    (∀ row rest, secs = row :: rest →
        (row.get? 2 = Option.none ∨
          ∃ v, row.get? 2 = some v ∧ py_truthy v = false) →
        lot_size_field secs = PyVal.int 1) ∧
    (∀ mkts price, resolve_price secs mkts = Except.ok price →
        (py_is_number price && py_gt_zero price) = false →
        parse_quote now_iso secs mkts = Option.none) := by
  refine ⟨rfl, ?_, ?_, ?_, ?_, ?_, ?_⟩
  · intro v row rest h
    simp [resolve_price, h]
  · intro row rest
    simp [resolve_price, py_is_none]
  · intro rest
    simp [resolve_price]
  · intro mkts he
    unfold parse_quote
    split
    · rfl
    · rw [he]
  · intro row rest hsecs hcond
    subst hsecs
    unfold lot_size_field
    dsimp only
    rcases hcond with hnone | ⟨v, hv, hfalsy⟩
    · have hlen : row.length ≤ 2 := List.get?_eq_none.mp hnone
      rw [dif_neg (by omega)]
    · obtain ⟨hlt, hget⟩ := List.get?_eq_some.mp hv
      rw [dif_pos hlt]
      simp only [List.get_eq_getElem] at hget
      simp [hget, hfalsy]
  · intro mkts price hres hfalse
    unfold parse_quote
    split
    · rfl
    · rw [hres]
      simp [hfalse]

/-- Claim C7 witness: a present non-null live price 99 is chosen over the
fallback field. -/
theorem C7_parse_resolution_witness :
    py_is_none (PyVal.float 99) = false ∧
      resolve_price [[PyVal.str "S", PyVal.float 1]] [[PyVal.float 99]] =
        Except.ok (PyVal.float 99) :=
  ⟨rfl, (C7_parse_resolution "t" [[PyVal.str "S", PyVal.float 1]]).2.1
    (PyVal.float 99) [] [] rfl⟩

/-! ### Valuation lemmas -/

theorem valuation_step_append (m : List (String × Quote))
    (acc : List (String × Position)) (t : ℚ) (e : String × Int) :
    valuation_step m (acc, t) e =
      (acc ++ (valuation_step m ([], 0) e).1,
        t + (valuation_step m ([], 0) e).2) := by
  unfold valuation_step
  cases hm : m.lookup e.1 with
  | none => simp
  | some data =>
    by_cases h : data.price ≠ 0
    · simp [h]
    · simp [h]

theorem foldl_valuation_append (m : List (String × Quote))
    (p : List (String × Int)) (acc : List (String × Position)) (t : ℚ) :
    p.foldl (valuation_step m) (acc, t) =
      (acc ++ (p.foldl (valuation_step m) ([], 0)).1,
        t + (p.foldl (valuation_step m) ([], 0)).2) := by
  induction p generalizing acc t with
  | nil => simp
  | cons e tl ih =>
    simp only [List.foldl_cons]
    rcases hS : valuation_step m ([], 0) e with ⟨A, B⟩
    rw [valuation_step_append m acc t e, hS, ih (acc ++ A) (t + B), ih A B]
    simp [List.append_assoc, add_assoc]

theorem compute_positions_spec (p : List (String × Int))
    (m : List (String × Quote)) (hq : ∀ e ∈ m, 0 < (e.2 : Quote).price) :
    compute_positions p m =
      (p.filterMap (pos_of m), (p.map (quoted_value m)).sum) := by
  induction p with
  | nil => rfl
  | cons e tl ih =>
    show (e :: tl).foldl (valuation_step m) ([], 0) = _
    simp only [List.foldl_cons, List.filterMap_cons, List.map_cons,
      List.sum_cons]
    cases hm : m.lookup e.1 with
    | none =>
      have hstep : valuation_step m ([], 0) e = ([], 0) := by
        unfold valuation_step
        rw [hm]
      have hpo : pos_of m e = Option.none := by simp [pos_of, hm]
      have hqv : quoted_value m e = 0 := by simp [quoted_value, hm]
      rw [hstep, hpo, hqv, zero_add]
      exact ih
    | some data =>
      have hpos : 0 < data.price := hq (e.1, data) (lookup_mem m e.1 data hm)
      have hstep : valuation_step m ([], 0) e =
          ([(e.1, ⟨e.2, data.price, data.lot_size,
              data.price * (e.2 : ℚ) * (data.lot_size : ℚ)⟩)],
            data.price * (e.2 : ℚ) * (data.lot_size : ℚ)) := by
        unfold valuation_step
        rw [hm]
        simp [ne_of_gt hpos]
      have hpo : pos_of m e = some (e.1, ⟨e.2, data.price, data.lot_size,
          data.price * (e.2 : ℚ) * (data.lot_size : ℚ)⟩) := by
        simp [pos_of, hm]
      have hqv : quoted_value m e =
          data.price * (e.2 : ℚ) * (data.lot_size : ℚ) := by
        simp [quoted_value, hm]
      have ihf : tl.foldl (valuation_step m) ([], 0) =
          (tl.filterMap (pos_of m), (tl.map (quoted_value m)).sum) := ih
      rw [hstep, foldl_valuation_append m tl _ _, ihf, hpo, hqv]
      simp

theorem pos_lookup_none (m : List (String × Quote)) (p : List (String × Int))
    (s : String) (hm : m.lookup s = Option.none) :
    (p.filterMap (pos_of m)).lookup s = Option.none := by
  induction p with
  | nil => rfl
  | cons e tl ih =>
    rw [List.filterMap_cons]
    cases he : m.lookup e.1 with
    | none =>
      have hpo : pos_of m e = Option.none := by simp [pos_of, he]
      rw [hpo]
      exact ih
    | some q =>
      have hpo : pos_of m e = some (e.1, ⟨e.2, q.price, q.lot_size,
          q.price * (e.2 : ℚ) * (q.lot_size : ℚ)⟩) := by simp [pos_of, he]
      rw [hpo]
      have hne : s ≠ e.1 := by
        rintro rfl
        rw [hm] at he
        exact Option.noConfusion he
      rw [List.lookup_cons, beq_false_of_ne hne]
      exact ih

/-! ### Claim C1: total value, positions, unavailable list -/

/-- Claim C1: over any portfolio and any mapping of symbols to fetched
quotes (fetched quotes have positive prices; portfolio keys are distinct,
as dict keys are), the total equals the sum over portfolio entries of
`price × lots × lot_size` for quoted symbols and 0 for unquoted ones;
exactly the quoted symbols receive positions; and every unquoted
portfolio symbol gets no position and appears in the unavailable-assets
list paired with its held lot count. -/
theorem C1_report_valuation (p : List (String × Int))
    (m : List (String × Quote))
    (hq : ∀ e ∈ m, 0 < (e.2 : Quote).price)
    (hnd : (p.map Prod.fst).Nodup) :
    (generate_report_data p m).total_value = (p.map (quoted_value m)).sum ∧
      (generate_report_data p m).positions = p.filterMap (pos_of m) ∧
      ∀ s lots, (s, lots) ∈ p → m.lookup s = Option.none →
        (generate_report_data p m).positions.lookup s = Option.none ∧
          (s, lots) ∈ (generate_report_data p m).unavailable := by
  have hcp := compute_positions_spec p m hq
  refine ⟨by simp [generate_report_data, hcp],
    by simp [generate_report_data, hcp], ?_⟩
  intro s lots hmem hnone
  have hplook : (p.filterMap (pos_of m)).lookup s = Option.none :=
    pos_lookup_none m p s hnone
  have hgl : (generate_report_data p m).positions.lookup s = Option.none := by
    simp only [generate_report_data, hcp]
    exact hplook
  refine ⟨hgl, ?_⟩
  have hs : s ∈ failed_symbols p (p.filterMap (pos_of m)) := by
    unfold failed_symbols
    rw [List.mem_filter]
    exact ⟨List.mem_map_of_mem Prod.fst hmem, by simp [hplook]⟩
  have hlk : p.lookup s = some lots := lookup_eq_of_mem_nodup p s lots hnd hmem
  have hmm := List.mem_map_of_mem
    (fun s => (s, (p.lookup s).getD 0)) hs
  simp only [generate_report_data, hcp]
  unfold unavailable_section
  simpa [hlk] using hmm

/-- Claim C1 witness: portfolio {SBER: 10, GAZP: 5} with only SBER quoted
(price 250, lot size 10): GAZP gets no position and is listed as
unavailable with its 5 lots; the quote prices are positive and the keys
distinct. -/
theorem C1_report_valuation_witness :
    (∀ e ∈ [("SBER", Quote.mk 250 10 "MOEX" "t")], 0 < (e.2 : Quote).price) ∧
      (([("SBER", (10 : Int)), ("GAZP", 5)].map Prod.fst).Nodup) ∧
      (generate_report_data [("SBER", (10 : Int)), ("GAZP", 5)]
            [("SBER", Quote.mk 250 10 "MOEX" "t")]).positions.lookup "GAZP" =
          Option.none ∧
      ("GAZP", (5 : Int)) ∈
        (generate_report_data [("SBER", (10 : Int)), ("GAZP", 5)]
          [("SBER", Quote.mk 250 10 "MOEX" "t")]).unavailable :=
  ⟨by decide, by decide,
    (C1_report_valuation [("SBER", (10 : Int)), ("GAZP", 5)]
      [("SBER", Quote.mk 250 10 "MOEX" "t")] (by decide) (by decide)).2.2
      "GAZP" 5 (by decide) (by decide)⟩

/-! ### Claim C9: percentage computation -/

/-- Claim C9: each position's percentage in the report is
`value / total × 100` when the total is positive and 0 when the total is
0 (the guard of line 153 prevents any division by zero). -/
theorem C9_percent_cases (positions : List (String × Position)) (t : ℚ) :
    (0 < t → valuation_percents positions t =
      positions.map fun e => (e.1, e.2.position_value / t * 100)) ∧
    (t = 0 → valuation_percents positions t =
      positions.map fun e => (e.1, 0)) := by
  constructor
  · intro h
    unfold valuation_percents position_percent
    simp [h]
  · rintro rfl
    unfold valuation_percents position_percent
    simp

/-- Claim C9 witness: with total 1 the percentage is the division formula;
the zero-total branch yields 0 for every position. -/
theorem C9_percent_cases_witness :
    (0 : ℚ) < 1 ∧
      valuation_percents [("SBER", Position.mk 10 250 10 25000)] 1 =
        [("SBER", (25000 : ℚ) / 1 * 100)] ∧
      valuation_percents [("SBER", Position.mk 10 250 10 25000)] 0 =
        [("SBER", (0 : ℚ))] := by
  refine ⟨by decide, ?_, ?_⟩
  · rw [(C9_percent_cases [("SBER", Position.mk 10 250 10 25000)] 1).1
      (by decide)]
    rfl
  · rw [(C9_percent_cases [("SBER", Position.mk 10 250 10 25000)] 0).2 rfl]
    rfl

/-! ### Claim C8: message truncation -/

/-- Claim C8: with truthy credentials, a message longer than 4000
characters is posted as its first 4000 characters followed by the literal
truncation marker, and a message of at most 4000 characters is posted
unchanged. -/
theorem C8_truncation (token chat_id : String)
    (htok : token ≠ "") (hchat : chat_id ≠ "") (message : String) :
    (message.length > 4000 →
      send_telegram_message (some token) (some chat_id) message =
        some (message.take 4000 ++ truncation_marker)) ∧
    (message.length ≤ 4000 →
      send_telegram_message (some token) (some chat_id) message =
        some message) := by
  unfold send_telegram_message str_truthy truncate_message
  constructor
  · intro h
    simp [htok, hchat, h]
  · intro h
    simp [htok, hchat, Nat.not_lt.mpr h]

/-- Claim C8 witness: a short message is posted unchanged. -/
theorem C8_truncation_witness :
    ("x" : String) ≠ "" ∧ ("hi" : String).length ≤ 4000 ∧
      send_telegram_message (some "x") (some "y") "hi" = some "hi" :=
  ⟨by decide, by decide,
    (C8_truncation "x" "y" (by decide) (by decide) "hi").2 (by decide)⟩
